import Mathlib

/-!
Verification development for the modality-ctf-plugins repository.

Shallow embedding of the core components:
- the value model and the field-flattening engine (src/event.rs),
- the attribute-key interning registry (src/client.rs),
- trace/stream (timeline) property derivation (src/properties/*.rs),
- the per-timeline sequencing / drop pipeline (src/bin/importer.rs).

Machine integers are modelled as `Nat`/`Int` (u64 payloads are `Nat`, i64
payloads are `Int`); fallible construction returns `Except`.  External
collaborators (the UUID/logical-time parsers from the `uuid`/`modality-api`
crates, the UUID-v5 hash, the filesystem probe and the downstream ingest
store) are modelled as explicit function parameters or as explicit state,
so every theorem is universally quantified over their behavior.
-/

namespace ModalityCtf

/-- Rust uuid::Uuid: 16 bytes (each < 256).  Only its identity matters here. -/
structure Uuid where
  bytes : List Nat
deriving DecidableEq, Repr

/-- Rust modality_api::TimelineId: an opaque wrapper around a UUID. -/
structure TimelineId where
  uuid : Uuid
deriving DecidableEq, Repr

/-- Rust modality_api::LogicalTime: opaque components, produced only by the
external parser; modelled as its list of u64 components. -/
structure LogicalTime where
  components : List Nat
deriving DecidableEq, Repr

/-- The attribute value model (`modality_api::AttrVal` restricted to the
variants this repository produces).  Floating point payloads are carried
as their raw bit patterns (`Nat`), which is all the flattening code ever
moves around (it never computes with them). -/
inductive AttrVal where
  | bool (v : Bool)
  | integer (v : Int)
  | bigInt (v : Int)
  | float (bits : Nat)
  | string (v : String)
  | timelineId (v : TimelineId)
  | logicalTime (v : LogicalTime)
  | timestamp (ns : Nat)
deriving DecidableEq, Repr

/-- Rust modality_api::BigInt::new_attr_val (external constructor): wraps an
i128 into an attribute value. -/
def BigInt.new_attr_val (v : Int) : AttrVal := AttrVal.bigInt v

/-- Rust babeltrace2_sys::ScalarField: the closed set of decoded scalar kinds.
Enumeration labels come from a `BTreeSet<String>`, modelled as its ordered
list of elements. -/
inductive ScalarField where
  | bool (v : Bool)
  | unsignedInteger (v : Nat)
  | signedInteger (v : Int)
  | singlePrecisionReal (bits : Nat)
  | doublePrecisionReal (bits : Nat)
  | string (v : String)
  | unsignedEnumeration (v : Nat) (labels : List String)
  | signedEnumeration (v : Int) (labels : List String)
deriving DecidableEq, Repr

/-- Rust babeltrace2_sys::OwnedField: a scalar or a structure with an ordered
sequence of sub-fields (the `Vec<OwnedField>` of the source). -/
inductive OwnedField where
  | Scalar (name : Option String) (s : ScalarField)
  | Structure (name : Option String) (fields : List OwnedField)
deriving Repr

/-- The error variants relevant to this development (src/error.rs). -/
inductive Error where
  | InvalidAttrKeyPrefix
deriving DecidableEq, Repr

/-- Rust str::starts_with (character-list formulation of
`String.startsWith`, kept kernel-evaluable). -/
def strStartsWith (s p : String) : Bool :=
  p.toList.isPrefixOf s.toList

/-- Rust str::ends_with. -/
def strEndsWith (s p : String) : Bool :=
  p.toList.reverse.isPrefixOf s.toList.reverse

/-- Rust str::is_empty. -/
def strIsEmpty (s : String) : Bool :=
  s.toList.isEmpty

/-- Rust str::contains: `sub` occurs as a contiguous substring of
`hay`. -/
def strContains (hay sub : String) : Bool :=
  (List.range (hay.toList.length + 1)).any fun i =>
    sub.toList.isPrefixOf (hay.toList.drop i)

/-- Rust HashMap/BTreeMap insert on an association list (all maps modelled
here have unique keys): replace the binding if the key is present,
otherwise append the new binding. -/
def insertKV {α β : Type} [DecidableEq α] : List (α × β) → α → β → List (α × β)
  | [], k, v => [(k, v)]
  | p :: ps, k, v => if p.1 = k then (k, v) :: ps else p :: insertKV ps k v

/-- The external pure parsers this system delegates to (`uuid` crate and
`modality_api::LogicalTime::from_str`). -/
structure Externals where
  parseUuid : String → Option Uuid
  parseLogicalTime : String → Option LogicalTime

/-- src/event.rs `ReservedAttrKey`. -/
inductive ReservedAttrKey where
  | TimelineId
  | LogicalTime
  | Timestamp
  | Nonce
  | MutatorId
  | MutationId
  | MutationSuccess
deriving DecidableEq, Repr

/-- src/event.rs `ReservedAttrKey::to_ctf_key`. -/
def ReservedAttrKey.to_ctf_key : ReservedAttrKey → String
  | .TimelineId => "remote_timeline_id"
  | .LogicalTime => "remote_logical_time"
  | .Timestamp => "remote_timestamp"
  | .Nonce => "remote_nonce"
  | .MutatorId => "mutator_id"
  | .MutationId => "mutation_id"
  | .MutationSuccess => "mutation_success"

/-- src/event.rs `ReservedAttrKey::to_modality_key`. -/
def ReservedAttrKey.to_modality_key : ReservedAttrKey → String
  | .TimelineId => "interaction.remote_timeline_id"
  | .LogicalTime => "interaction.remote_logical_time"
  | .Timestamp => "interaction.remote_timestamp"
  | .Nonce => "interaction.remote_nonce"
  | .MutatorId => "mutator.id"
  | .MutationId => "mutation.id"
  | .MutationSuccess => "mutation.success"

/-- src/event.rs `ReservedAttrKey::matches_key`:
`!k.contains(self.to_modality_key()) && k.contains(self.to_ctf_key())`. -/
def ReservedAttrKey.matches_key (r : ReservedAttrKey) (k : String) : Bool :=
  !(strContains k r.to_modality_key) && strContains k r.to_ctf_key

/-- src/event.rs `uuid_to_integer_attr_val`: reinterpret the UUID's 16
bytes as a little-endian i128 (two's complement). -/
def uuid_to_integer_attr_val (u : Uuid) : AttrVal :=
  let n : Nat := (u.bytes.take 16).reverse.foldl (fun acc b => acc * 256 + b % 256) 0
  AttrVal.integer (if n < 2 ^ 127 then (n : Int) else (n : Int) - 2 ^ 128)

/-- src/event.rs `scalar_field_to_val`. -/
def scalar_field_to_val (s : ScalarField) : AttrVal :=
  match s with
  | .bool v => .bool v
  | .unsignedInteger v => BigInt.new_attr_val (v : Int)
  | .signedInteger v => .integer v
  | .singlePrecisionReal bits => .float bits
  | .doublePrecisionReal bits => .float bits
  | .string v => .string v
  | .unsignedEnumeration v _ => BigInt.new_attr_val (v : Int)
  | .signedEnumeration v _ => .integer v

/-- src/event.rs `enum_label_attr`: the extra `.label` attribute, emitted
only when the label set has exactly one element. -/
def enum_label_attr (key_pfx : String) (labels : List String) :
    Option (String × AttrVal) :=
  if labels.length = 1 then
    labels.head?.map fun l => (key_pfx ++ ".label", AttrVal.string l)
  else
    none

/-- src/event.rs `FieldToAttrKeysGen`: the stateful flattening traversal.
`attrs` is the `HashMap<AttrKey, AttrVal>` as an association list in
insertion order (all inserted keys are produced unique by the traversal,
and no claim depends on map iteration order). -/
structure FieldToAttrKeysGen where
  anonymous_field_idices_per_nesting_depth : List Nat
  attr_key_stack : List String
  root_struct_observed : Bool
  auto_map_interaction_fields : Bool
  is_reserved_event : Bool
  attrs : List (String × AttrVal)
deriving DecidableEq, Repr

namespace FieldToAttrKeysGen

/-- src/event.rs `FieldToAttrKeysGen::new`. -/
def new (pfx : String) (auto_map_interaction_fields is_reserved_event : Bool) :
    Except Error FieldToAttrKeysGen :=
  if strStartsWith pfx "." || strEndsWith pfx "." then
    .error .InvalidAttrKeyPrefix
  else
    .ok
      { anonymous_field_idices_per_nesting_depth := [0]
        attr_key_stack := [pfx]
        root_struct_observed := false
        auto_map_interaction_fields
        is_reserved_event
        attrs := [] }

/-- src/event.rs `FieldToAttrKeysGen::resolve_field_name`: a provided name
is used verbatim; a missing name becomes `anonymous_<n>` using (and
post-incrementing) the current depth's counter. -/
def resolve_field_name (g : FieldToAttrKeysGen) (field_name : Option String) :
    String × FieldToAttrKeysGen :=
  match field_name with
  | some n => (n, g)
  | none =>
    let nesting_depth := g.anonymous_field_idices_per_nesting_depth.length - 1
    let idx := g.anonymous_field_idices_per_nesting_depth.getD nesting_depth 0
    ("anonymous_" ++ toString idx,
      { g with
        anonymous_field_idices_per_nesting_depth :=
          g.anonymous_field_idices_per_nesting_depth.set nesting_depth (idx + 1) })

/-- src/event.rs `FieldToAttrKeysGen::attr_key_for_field_name`: join the
non-empty stack components and the resolved leaf name with `.`. -/
def attr_key_for_field_name (g : FieldToAttrKeysGen) (field_name : Option String) :
    String × FieldToAttrKeysGen :=
  let r := g.resolve_field_name field_name
  (String.intercalate "."
      ((g.attr_key_stack.filter fun k => !strIsEmpty k) ++ [r.1]),
    r.2)

/-- src/event.rs `FieldToAttrKeysGen::begin_nested_struture`: the root
structure is flattened transparently; any other structure pushes its
(resolved) name and a fresh anonymous counter. -/
def begin_nested_struture (g : FieldToAttrKeysGen) (field_name : Option String) :
    FieldToAttrKeysGen :=
  if !g.root_struct_observed then
    { g with root_struct_observed := true }
  else
    let r := g.resolve_field_name field_name
    { r.2 with
      attr_key_stack := r.2.attr_key_stack ++ [r.1]
      anonymous_field_idices_per_nesting_depth :=
        r.2.anonymous_field_idices_per_nesting_depth ++ [0] }

/-- src/event.rs `FieldToAttrKeysGen::end_nested_structure`: pop both
stacks. -/
def end_nested_structure (g : FieldToAttrKeysGen) : FieldToAttrKeysGen :=
  { g with
    attr_key_stack := g.attr_key_stack.dropLast
    anonymous_field_idices_per_nesting_depth :=
      g.anonymous_field_idices_per_nesting_depth.dropLast }

end FieldToAttrKeysGen

/-- src/event.rs `ScalarFieldAttrKeyVal`. -/
inductive ScalarFieldAttrKeyVal where
  | single (kv : String × AttrVal)
  | double (kv extra_kv : String × AttrVal)
deriving DecidableEq, Repr

namespace FieldToAttrKeysGen

/-- The `auto_map_interaction_fields` if/else-if chain of
`handle_scalar_field` (src/event.rs lines 276-322).  Each Rust `return`
becomes `some`; falling out of the chain (parse failure, wrong scalar
type, or no reserved token in the key) becomes `none`. -/
def interaction_remap (ext : Externals) (k : String) (s : ScalarField) :
    Option (String × AttrVal) :=
  if ReservedAttrKey.TimelineId.matches_key k then
    match s with
    | .string tid =>
      (ext.parseUuid tid).map fun u =>
        (ReservedAttrKey.TimelineId.to_modality_key, AttrVal.timelineId ⟨u⟩)
    | _ => none
  else if ReservedAttrKey.LogicalTime.matches_key k then
    match s with
    | .string t =>
      (ext.parseLogicalTime t).map fun lt =>
        (ReservedAttrKey.LogicalTime.to_modality_key, AttrVal.logicalTime lt)
    | _ => none
  else if ReservedAttrKey.Timestamp.matches_key k then
    match s with
    | .unsignedInteger t =>
      some (ReservedAttrKey.Timestamp.to_modality_key, AttrVal.timestamp t)
    | _ => none
  else if ReservedAttrKey.Nonce.matches_key k then
    some (ReservedAttrKey.Nonce.to_modality_key, scalar_field_to_val s)
  else
    none

/-- The `is_reserved_event` if/else-if chain of `handle_scalar_field`
(src/event.rs lines 324-373), with the same `return`-to-`some`
convention. -/
def reserved_event_remap (ext : Externals) (k : String) (s : ScalarField) :
    Option (String × AttrVal) :=
  if ReservedAttrKey.MutatorId.matches_key k then
    match s with
    | .string id =>
      (ext.parseUuid id).map fun u =>
        (ReservedAttrKey.MutatorId.to_modality_key, uuid_to_integer_attr_val u)
    | _ => none
  else if ReservedAttrKey.MutationId.matches_key k then
    match s with
    | .string id =>
      (ext.parseUuid id).map fun u =>
        (ReservedAttrKey.MutationId.to_modality_key, uuid_to_integer_attr_val u)
    | _ => none
  else if ReservedAttrKey.MutationSuccess.matches_key k then
    let maybe_success : Option Bool :=
      match s with
      | .bool val => some val
      | .unsignedInteger val => some (val ≠ 0)
      | .signedInteger val => some (val ≠ 0)
      | _ => none
    maybe_success.map fun success =>
      (ReservedAttrKey.MutationSuccess.to_modality_key, AttrVal.bool success)
  else
    none

/-- src/event.rs `FieldToAttrKeysGen::handle_scalar_field`.  Enumerations
take the dedicated first match arm; every other scalar runs the
interaction chain (when enabled), then the reserved-event chain (when
enabled), then the default key/value emission of line 375. -/
def handle_scalar_field (ext : Externals) (g : FieldToAttrKeysGen)
    (field_name : Option String) (s : ScalarField) :
    ScalarFieldAttrKeyVal × FieldToAttrKeysGen :=
  let r := g.attr_key_for_field_name field_name
  let k := r.1
  let g' := r.2
  match s with
  | .unsignedEnumeration _ labels =>
    match enum_label_attr k labels with
    | some extra_kv => (.double (k, scalar_field_to_val s) extra_kv, g')
    | none => (.single (k, scalar_field_to_val s), g')
  | .signedEnumeration _ labels =>
    match enum_label_attr k labels with
    | some extra_kv => (.double (k, scalar_field_to_val s) extra_kv, g')
    | none => (.single (k, scalar_field_to_val s), g')
  | _ =>
    match (if g'.auto_map_interaction_fields then interaction_remap ext k s else none) with
    | some kv => (.single kv, g')
    | none =>
      match (if g'.is_reserved_event then reserved_event_remap ext k s else none) with
      | some kv => (.single kv, g')
      | none => (.single (k, scalar_field_to_val s), g')

mutual

/-- src/event.rs `FieldToAttrKeysGen::generate_inner`: depth-first,
pre-order, left-to-right traversal inserting each scalar's key/value
(and the possible enum `.label` extra) into `attrs`. -/
def generate_inner (ext : Externals) (g : FieldToAttrKeysGen) :
    OwnedField → FieldToAttrKeysGen
  | .Scalar name s =>
    match handle_scalar_field ext g name s with
    | (.single kv, g') => { g' with attrs := insertKV g'.attrs kv.1 kv.2 }
    | (.double kv extra_kv, g') =>
      { g' with attrs := insertKV (insertKV g'.attrs kv.1 kv.2) extra_kv.1 extra_kv.2 }
  | .Structure name fields =>
    end_nested_structure (generate_fields ext (begin_nested_struture g name) fields)
termination_by structural f => f

/-- The `for f in fields.iter()` recursion of `generate_inner`. -/
def generate_fields (ext : Externals) (g : FieldToAttrKeysGen) :
    List OwnedField → FieldToAttrKeysGen
  | [] => g
  | f :: fs => generate_fields ext (generate_inner ext g f) fs
termination_by structural fs => fs

end

/-- src/event.rs `FieldToAttrKeysGen::generate`. -/
def generate (ext : Externals) (g : FieldToAttrKeysGen) (root_field : OwnedField) :
    List (String × AttrVal) :=
  (generate_inner ext g root_field).attrs

end FieldToAttrKeysGen

/-- src/event.rs `field_to_attr`: construct the generator (validating the
prefix) and run it. -/
def field_to_attr (ext : Externals) (f : OwnedField) (pfx : String)
    (auto_map_interaction_fields is_reserved_event : Bool) :
    Except Error (List (String × AttrVal)) :=
  (FieldToAttrKeysGen.new pfx auto_map_interaction_fields is_reserved_event).map
    fun g => g.generate ext f

/-- A trivial concrete instance of the external parsers, used only to
instantiate universally quantified theorems at concrete inputs. -/
def noParse : Externals := ⟨fun _ => none, fun _ => none⟩

/-- The spec's example tree (also the `messy_event_structure` test fixture
of src/event.rs, restricted to the twelve plain fields the example names;
the fixture's reserved-field tail belongs to other claims). -/
def messy_event_structure : OwnedField :=
  .Structure none
    [ .Scalar (some "l0_f0") (.bool true),
      .Scalar none (.unsignedInteger 0),
      .Scalar (some "l0_f1") (.string "blah"),
      .Structure (some "l0_s0")
        [ .Scalar none (.bool false),
          .Scalar (some "l1_f0") (.signedInteger (-1)),
          .Structure none
            [ .Scalar (some "l2_f0") (.string "blah"),
              .Scalar none (.bool true),
              .Scalar none (.unsignedInteger 2) ],
          .Scalar none (.signedInteger 3),
          .Scalar (some "l1_f1") (.string "foo") ],
      .Scalar (some "l0_f2") (.signedInteger (-2)),
      .Scalar none (.bool false) ]

/-- A concrete generator state used to instantiate universally quantified
theorems: key stack seeded with prefix "p", both remapping flags on. -/
def sampleGen : FieldToAttrKeysGen :=
  { anonymous_field_idices_per_nesting_depth := [0]
    attr_key_stack := ["p"]
    root_struct_observed := true
    auto_map_interaction_fields := true
    is_reserved_event := true
    attrs := [] }

/-- A concrete parser instance recognizing exactly the string "u" as a
UUID, used to instantiate universally quantified theorems. -/
def uuidParseStub : Externals :=
  ⟨fun s => if s = "u" then some ⟨List.replicate 16 0⟩ else none, fun _ => none⟩

set_option maxHeartbeats 1000000 in
/-- C1: flattening the example tree with prefix "some.prefix" yields exactly
the twelve expected key/value pairs (anonymous names numbered per nesting
depth by post-increment), whatever the two remapping flags are.  None of
the twelve resolved keys contains a reserved token, so the external
parsers are never consulted; they are instantiated with `noParse`. -/
theorem claim_C1 (au re : Bool) :
    field_to_attr noParse messy_event_structure "some.prefix" au re =
      .ok [ ("some.prefix.l0_f0", .bool true),
            ("some.prefix.anonymous_0", BigInt.new_attr_val 0),
            ("some.prefix.l0_f1", .string "blah"),
            ("some.prefix.l0_s0.anonymous_0", .bool false),
            ("some.prefix.l0_s0.l1_f0", .integer (-1)),
            ("some.prefix.l0_s0.anonymous_1.l2_f0", .string "blah"),
            ("some.prefix.l0_s0.anonymous_1.anonymous_0", .bool true),
            ("some.prefix.l0_s0.anonymous_1.anonymous_1", BigInt.new_attr_val 2),
            ("some.prefix.l0_s0.anonymous_2", .integer 3),
            ("some.prefix.l0_s0.l1_f1", .string "foo"),
            ("some.prefix.l0_f2", .integer (-2)),
            ("some.prefix.anonymous_1", .bool false) ] := by
  cases au <;> cases re <;> rfl

/-- C2: a prefix starting or ending with '.' makes construction (and hence
field_to_attr) fail with InvalidAttrKeyPrefix before any traversal; any
other prefix (the empty string included) constructs successfully. -/
theorem claim_C2 (pfx : String) (au re : Bool) (ext : Externals) (f : OwnedField) :
    ((strStartsWith pfx "." || strEndsWith pfx ".") = true →
        FieldToAttrKeysGen.new pfx au re = .error .InvalidAttrKeyPrefix ∧
        field_to_attr ext f pfx au re = .error .InvalidAttrKeyPrefix) ∧
    ((strStartsWith pfx "." || strEndsWith pfx ".") = false →
        FieldToAttrKeysGen.new pfx au re =
          .ok { anonymous_field_idices_per_nesting_depth := [0]
                attr_key_stack := [pfx]
                root_struct_observed := false
                auto_map_interaction_fields := au
                is_reserved_event := re
                attrs := [] }) := by
  constructor <;> intro h <;>
    simp [FieldToAttrKeysGen.new, field_to_attr, h, Except.map]

/-- Closed instance of claim_C2: ".bad" is rejected, "" is accepted. -/
theorem claim_C2_witness :
    (strStartsWith ".bad" "." || strEndsWith ".bad" ".") = true ∧
    field_to_attr noParse (.Structure none []) ".bad" false false =
      .error .InvalidAttrKeyPrefix ∧
    (strStartsWith "" "." || strEndsWith "" ".") = false ∧
    FieldToAttrKeysGen.new "" true true =
      .ok { anonymous_field_idices_per_nesting_depth := [0]
            attr_key_stack := [""]
            root_struct_observed := false
            auto_map_interaction_fields := true
            is_reserved_event := true
            attrs := [] } :=
  ⟨by rfl,
   ((claim_C2 ".bad" false false noParse (.Structure none [])).1 (by rfl)).2,
   by rfl,
   (claim_C2 "" true true noParse (.Structure none [])).2 (by rfl)⟩

/-- C3: a signed or unsigned enumeration scalar with exactly one label
yields both the discriminant attribute at the resolved key and a `.label`
attribute; with zero or several labels it yields only the discriminant
attribute. -/
theorem claim_C3 (ext : Externals) (g : FieldToAttrKeysGen) (name : Option String)
    (uv : Nat) (sv : Int) (labels : List String) :
    (∀ l, labels = [l] →
      FieldToAttrKeysGen.generate_inner ext g
          (.Scalar name (.unsignedEnumeration uv labels)) =
        { (g.attr_key_for_field_name name).2 with
          attrs := insertKV
            (insertKV (g.attr_key_for_field_name name).2.attrs
              (g.attr_key_for_field_name name).1 (BigInt.new_attr_val (uv : Int)))
            ((g.attr_key_for_field_name name).1 ++ ".label") (.string l) } ∧
      FieldToAttrKeysGen.generate_inner ext g
          (.Scalar name (.signedEnumeration sv labels)) =
        { (g.attr_key_for_field_name name).2 with
          attrs := insertKV
            (insertKV (g.attr_key_for_field_name name).2.attrs
              (g.attr_key_for_field_name name).1 (.integer sv))
            ((g.attr_key_for_field_name name).1 ++ ".label") (.string l) }) ∧
    (labels.length ≠ 1 →
      FieldToAttrKeysGen.generate_inner ext g
          (.Scalar name (.unsignedEnumeration uv labels)) =
        { (g.attr_key_for_field_name name).2 with
          attrs := insertKV (g.attr_key_for_field_name name).2.attrs
            (g.attr_key_for_field_name name).1 (BigInt.new_attr_val (uv : Int)) } ∧
      FieldToAttrKeysGen.generate_inner ext g
          (.Scalar name (.signedEnumeration sv labels)) =
        { (g.attr_key_for_field_name name).2 with
          attrs := insertKV (g.attr_key_for_field_name name).2.attrs
            (g.attr_key_for_field_name name).1 (.integer sv) }) := by
  constructor
  · rintro l rfl
    exact ⟨rfl, rfl⟩
  · intro hne
    constructor <;>
      simp [FieldToAttrKeysGen.generate_inner,
        FieldToAttrKeysGen.handle_scalar_field, enum_label_attr, hne,
        scalar_field_to_val]

/-- Closed instance of claim_C3: one label gives both attributes, two
labels give only the discriminant attribute. -/
theorem claim_C3_witness :
    (["only"] = ["only"]) ∧
    FieldToAttrKeysGen.generate_inner noParse sampleGen
        (.Scalar (some "e") (.unsignedEnumeration 7 ["only"])) =
      { sampleGen with
        attrs := [("p.e", BigInt.new_attr_val 7), ("p.e.label", .string "only")] } ∧
    (["a", "b"].length ≠ 1) ∧
    FieldToAttrKeysGen.generate_inner noParse sampleGen
        (.Scalar (some "e") (.signedEnumeration (-4) ["a", "b"])) =
      { sampleGen with attrs := [("p.e", .integer (-4))] } :=
  ⟨rfl,
   (((claim_C3 noParse sampleGen (some "e") 7 0 ["only"]).1 "only" rfl).1).trans (by rfl),
   by decide,
   (((claim_C3 noParse sampleGen (some "e") 0 (-4) ["a", "b"]).2 (by decide)).2).trans (by rfl)⟩

/-- Helper for stating flag-independence: `g` with its two remapping flags
replaced. -/
def setFlags (g : FieldToAttrKeysGen) (au re : Bool) : FieldToAttrKeysGen :=
  { g with auto_map_interaction_fields := au, is_reserved_event := re }

/-- Key resolution touches only the anonymous counters, so it commutes
with replacing the remapping flags. -/
theorem attr_key_for_field_name_setFlags (g : FieldToAttrKeysGen)
    (au re : Bool) (name : Option String) :
    (setFlags g au re).attr_key_for_field_name name =
      ((g.attr_key_for_field_name name).1,
        setFlags (g.attr_key_for_field_name name).2 au re) := by
  cases name <;>
    simp [FieldToAttrKeysGen.attr_key_for_field_name,
      FieldToAttrKeysGen.resolve_field_name, setFlags]

/-- Key resolution leaves both remapping flags unchanged. -/
theorem attr_key_for_field_name_flags (g : FieldToAttrKeysGen)
    (name : Option String) :
    (g.attr_key_for_field_name name).2.auto_map_interaction_fields =
        g.auto_map_interaction_fields ∧
    (g.attr_key_for_field_name name).2.is_reserved_event =
        g.is_reserved_event := by
  cases name <;>
    simp [FieldToAttrKeysGen.attr_key_for_field_name,
      FieldToAttrKeysGen.resolve_field_name]

/-- C10: enumeration scalars are never remapped.  For any flag settings
and any key content, a signed or unsigned enumeration is emitted under
its normally computed key with its normal discriminant value (plus the
possible label attribute); the flags survive only as carried state. -/
theorem claim_C10 (ext : Externals) (g : FieldToAttrKeysGen) (au re : Bool)
    (name : Option String) (uv : Nat) (sv : Int) (labels : List String) :
    FieldToAttrKeysGen.handle_scalar_field ext (setFlags g au re) name
        (.unsignedEnumeration uv labels) =
      ((match enum_label_attr (g.attr_key_for_field_name name).1 labels with
        | some extra_kv =>
          .double ((g.attr_key_for_field_name name).1,
            BigInt.new_attr_val (uv : Int)) extra_kv
        | none =>
          .single ((g.attr_key_for_field_name name).1,
            BigInt.new_attr_val (uv : Int))),
        setFlags (g.attr_key_for_field_name name).2 au re) ∧
    FieldToAttrKeysGen.handle_scalar_field ext (setFlags g au re) name
        (.signedEnumeration sv labels) =
      ((match enum_label_attr (g.attr_key_for_field_name name).1 labels with
        | some extra_kv =>
          .double ((g.attr_key_for_field_name name).1, .integer sv) extra_kv
        | none => .single ((g.attr_key_for_field_name name).1, .integer sv)),
        setFlags (g.attr_key_for_field_name name).2 au re) := by
  constructor <;>
  · simp only [FieldToAttrKeysGen.handle_scalar_field,
      attr_key_for_field_name_setFlags, scalar_field_to_val]
    cases enum_label_attr (g.attr_key_for_field_name name).1 labels <;> rfl

/-- C4 as written is refuted at this input: with interaction mapping on,
a string field whose key contains remote_timeline_id but does not parse
as a UUID is NOT silently omitted; it falls through (src/event.rs line
375) to the default key/value emission. -/
theorem claim_C4_counterexample :
    field_to_attr noParse
        (.Structure none [.Scalar (some "remote_timeline_id") (.string "notauuid")])
        "" true false
      = .ok [("remote_timeline_id", AttrVal.string "notauuid")] := by rfl

/-- C4 (amended): with auto_map_interaction_fields on and a computed key
matching remote_timeline_id, a string scalar parsing as a UUID is emitted
solely at the canonical key interaction.remote_timeline_id with a
timeline-ID value; on parse failure the field falls back to the default
(non-remapped) key/value emission for that field. -/
theorem claim_C4 (ext : Externals) (g : FieldToAttrKeysGen)
    (name : Option String) (tid : String)
    (hau : g.auto_map_interaction_fields = true)
    (hm : ReservedAttrKey.TimelineId.matches_key
      (g.attr_key_for_field_name name).1 = true) :
    FieldToAttrKeysGen.handle_scalar_field ext g name (.string tid) =
      ((match ext.parseUuid tid with
        | some u =>
          .single ("interaction.remote_timeline_id", .timelineId ⟨u⟩)
        | none =>
          .single ((g.attr_key_for_field_name name).1, .string tid)),
        (g.attr_key_for_field_name name).2) := by
  have hau' : (g.attr_key_for_field_name name).2.auto_map_interaction_fields = true :=
    (attr_key_for_field_name_flags g name).1.trans hau
  simp only [FieldToAttrKeysGen.handle_scalar_field, hau', if_true,
    FieldToAttrKeysGen.interaction_remap, hm, scalar_field_to_val]
  cases hp : ext.parseUuid tid with
  | some u => simp [hp, ReservedAttrKey.to_modality_key]
  | none =>
    have hres : FieldToAttrKeysGen.reserved_event_remap ext
        (g.attr_key_for_field_name name).1 (.string tid) = none := by
      simp only [FieldToAttrKeysGen.reserved_event_remap, hp]
      split <;> simp [hp]
    simp [hp, hres]

/-- Closed instance of claim_C4: under the stub parser, "u" is remapped to
the canonical interaction key, "nope" falls back to the computed key. -/
theorem claim_C4_witness :
    sampleGen.auto_map_interaction_fields = true ∧
    ReservedAttrKey.TimelineId.matches_key
      (sampleGen.attr_key_for_field_name (some "remote_timeline_id")).1 = true ∧
    FieldToAttrKeysGen.handle_scalar_field uuidParseStub sampleGen
        (some "remote_timeline_id") (.string "u") =
      (.single ("interaction.remote_timeline_id",
          .timelineId ⟨⟨List.replicate 16 0⟩⟩), sampleGen) ∧
    FieldToAttrKeysGen.handle_scalar_field uuidParseStub sampleGen
        (some "remote_timeline_id") (.string "nope") =
      (.single ("p.remote_timeline_id", .string "nope"), sampleGen) :=
  ⟨rfl, by rfl,
   (claim_C4 uuidParseStub sampleGen (some "remote_timeline_id") "u" rfl
      (by rfl)).trans (by rfl),
   (claim_C4 uuidParseStub sampleGen (some "remote_timeline_id") "nope" rfl
      (by rfl)).trans (by rfl)⟩

/-- Rust BTreeMap/HashMap get on an association list. -/
def lookupKV {α β : Type} [DecidableEq α] : List (α × β) → α → Option β
  | [], _ => none
  | p :: ps, k => if p.1 = k then some p.2 else lookupKV ps k

theorem lookupKV_insertKV_self {α β : Type} [DecidableEq α]
    (m : List (α × β)) (k : α) (v : β) :
    lookupKV (insertKV m k v) k = some v := by
  induction m with
  | nil => simp [insertKV, lookupKV]
  | cons p ps ih =>
    by_cases hp : p.1 = k <;> simp [insertKV, lookupKV, hp, ih]

theorem lookupKV_insertKV_ne {α β : Type} [DecidableEq α]
    (m : List (α × β)) (k k' : α) (v : β) (h : k' ≠ k) :
    lookupKV (insertKV m k v) k' = lookupKV m k' := by
  induction m with
  | nil => simp [insertKV, lookupKV, Ne.symm h]
  | cons p ps ih =>
    by_cases hp : p.1 = k
    · have hq : p.1 ≠ k' := fun hh => h ((hh.symm.trans hp))
      simp [insertKV, lookupKV, hp, hq, Ne.symm h]
    · by_cases hq : p.1 = k' <;>
        simp [insertKV, lookupKV, hp, hq, h, Ne.symm h, ih]

/-- src/attrs.rs `TimelineAttrKey` with its Display strings. -/
inductive TimelineAttrKey where
  | Name
  | Description
  | RunId
  | TimeDomain
  | ClockStyle
  | IngestSource
  | TraceName
  | TraceUuid
  | TraceStreamCount
  | TraceEnv (k : String)
  | StreamId
  | StreamName
  | StreamClockFreq
  | StreamClockOffsetSeconds
  | StreamClockOffsetCycles
  | StreamClockPrecision
  | StreamClockUnixEpoch
  | StreamClockName
  | StreamClockDesc
  | StreamClockUuid
  | MergeStreamId
  | Custom (k : String)
deriving DecidableEq, Repr

/-- The derive_more Display implementation of `TimelineAttrKey`. -/
def TimelineAttrKey.to_string : TimelineAttrKey → String
  | .Name => "timeline.name"
  | .Description => "timeline.description"
  | .RunId => "timeline.run_id"
  | .TimeDomain => "timeline.time_domain"
  | .ClockStyle => "timeline.clock_style"
  | .IngestSource => "timeline.ingest_source"
  | .TraceName => "timeline.internal.ctf.trace.name"
  | .TraceUuid => "timeline.internal.ctf.trace.uuid"
  | .TraceStreamCount => "timeline.internal.ctf.trace.stream_count"
  | .TraceEnv k => "timeline.internal.ctf.trace.env." ++ k
  | .StreamId => "timeline.internal.ctf.stream.id"
  | .StreamName => "timeline.internal.ctf.stream.name"
  | .StreamClockFreq => "timeline.internal.ctf.stream.clock.frequency"
  | .StreamClockOffsetSeconds => "timeline.internal.ctf.stream.clock.offset_seconds"
  | .StreamClockOffsetCycles => "timeline.internal.ctf.stream.clock.offset_cycles"
  | .StreamClockPrecision => "timeline.internal.ctf.stream.clock.precision"
  | .StreamClockUnixEpoch => "timeline.internal.ctf.stream.clock.unix_epoch_origin"
  | .StreamClockName => "timeline.internal.ctf.stream.clock.name"
  | .StreamClockDesc => "timeline.internal.ctf.stream.clock.description"
  | .StreamClockUuid => "timeline.internal.ctf.stream.clock.uuid"
  | .MergeStreamId => "timeline.internal.config.merge_stream_id"
  | .Custom k => "timeline." ++ k

/-- src/config.rs `AttrKeyRename`. -/
structure AttrKeyRename where
  original : String
  renamed : String
deriving DecidableEq, Repr

/-- src/client.rs `normalize_timeline_key`. -/
def normalize_timeline_key (s : String) : String :=
  if strStartsWith s "timeline." then s else "timeline." ++ s

/-- src/client.rs `normalize_event_key`. -/
def normalize_event_key (s : String) : String :=
  if strStartsWith s "event." then s else "event." ++ s

/-- src/client.rs `Client`, together with the downstream store's observable
state: `declared` records the sequence of declare_attr_key round trips in
order, and the opaque `InternedAttrKey` handle returned for the n-th
declaration is modelled as n. -/
structure Client where
  declared : List String
  timeline_keys : List (String × Nat)
  event_keys : List (String × Nat)
  rename_timeline_attrs : List (String × String)
  rename_event_attrs : List (String × String)
deriving DecidableEq, Repr

/-- The downstream store's declare_attr_key operation as observed through
`DynamicIngestClient`: one round trip, returning a fresh handle. -/
def declare_attr_key (c : Client) (k : String) : Nat × Client :=
  (c.declared.length, { c with declared := c.declared ++ [k] })

/-- src/client.rs `Client::new`: both sides of every configured rename are
normalized to carry their namespace prefix; the pairs are collected into
the rename tables. -/
def Client.new (rename_timeline_attrs rename_event_attrs : List AttrKeyRename) :
    Client :=
  { declared := []
    timeline_keys := []
    event_keys := []
    rename_timeline_attrs :=
      rename_timeline_attrs.foldl
        (fun m r =>
          insertKV m (normalize_timeline_key r.original)
            (normalize_timeline_key r.renamed)) []
    rename_event_attrs :=
      rename_event_attrs.foldl
        (fun m r =>
          insertKV m (normalize_event_key r.original)
            (normalize_event_key r.renamed)) [] }

/-- The rename substitution of src/client.rs `interned_timeline_key`
(lines 63-66): use the renamed spelling when the stringified key is in
the table. -/
def Client.apply_timeline_rename (c : Client) (k : String) : String :=
  match lookupKV c.rename_timeline_attrs k with
  | some renamed => renamed
  | none => k

/-- src/client.rs `Client::interned_timeline_key`: apply the rename table,
then consult the cache; on a miss declare the key downstream and cache
the returned handle. -/
def Client.interned_timeline_key (c : Client) (key : TimelineAttrKey) :
    Nat × Client :=
  let k := c.apply_timeline_rename key.to_string
  match lookupKV c.timeline_keys k with
  | some h => (h, c)
  | none =>
    let r := declare_attr_key c k
    (r.1, { r.2 with timeline_keys := insertKV r.2.timeline_keys k r.1 })

/-- src/attrs.rs `EventAttrKey` with its Display strings (only the shape
needed here: the four field-group constructors carry the flattened local
key). -/
inductive EventAttrKey where
  | Name
  | Timestamp
  | StreamId
  | Id
  | LogLevel
  | ClockSnapshot
  | CommonContext (k : String)
  | SpecificContext (k : String)
  | PacketContext (k : String)
  | Field (k : String)
deriving DecidableEq, Repr

/-- The derive_more Display implementation of `EventAttrKey`. -/
def EventAttrKey.to_string : EventAttrKey → String
  | .Name => "event.name"
  | .Timestamp => "event.timestamp"
  | .StreamId => "event.internal.ctf.stream_id"
  | .Id => "event.internal.ctf.id"
  | .LogLevel => "event.internal.ctf.log_level"
  | .ClockSnapshot => "event.internal.ctf.clock_snapshot"
  | .CommonContext k => "event.internal.ctf.common_context." ++ k
  | .SpecificContext k => "event.internal.ctf.specific_context." ++ k
  | .PacketContext k => "event.internal.ctf.packet_context." ++ k
  | .Field k => "event." ++ k

/-- The rename substitution of src/client.rs `interned_event_key`. -/
def Client.apply_event_rename (c : Client) (k : String) : String :=
  match lookupKV c.rename_event_attrs k with
  | some renamed => renamed
  | none => k

/-- src/client.rs `Client::interned_event_key`. -/
def Client.interned_event_key (c : Client) (key : EventAttrKey) :
    Nat × Client :=
  let k := c.apply_event_rename key.to_string
  match lookupKV c.event_keys k with
  | some h => (h, c)
  | none =>
    let r := declare_attr_key c k
    (r.1, { r.2 with event_keys := insertKV r.2.event_keys k r.1 })

/-- C5: interning is at-most-once per final key string.  A first interning
performs at most one declare round trip; re-interning the same key (or any
key whose rename-substituted spelling coincides, e.g. the renamed-from and
renamed-to spellings of a configured rename) returns the same handle and
leaves the registry, and hence the downstream store, untouched. -/
theorem claim_C5 (c : Client) (key : TimelineAttrKey) :
    (c.interned_timeline_key key).2.declared.length ≤ c.declared.length + 1 ∧
    ((c.interned_timeline_key key).2.interned_timeline_key key =
      c.interned_timeline_key key) ∧
    ∀ key2 : TimelineAttrKey,
      (c.interned_timeline_key key).2.apply_timeline_rename key2.to_string =
          c.apply_timeline_rename key.to_string →
        (c.interned_timeline_key key).2.interned_timeline_key key2 =
          ((c.interned_timeline_key key).1, (c.interned_timeline_key key).2) := by
  have hmain : ∀ key2 : TimelineAttrKey,
      (c.interned_timeline_key key).2.apply_timeline_rename key2.to_string =
          c.apply_timeline_rename key.to_string →
        (c.interned_timeline_key key).2.interned_timeline_key key2 =
          ((c.interned_timeline_key key).1, (c.interned_timeline_key key).2) := by
    intro key2 hk
    cases hh : lookupKV c.timeline_keys (c.apply_timeline_rename key.to_string) with
    | some h =>
      have h1 : c.interned_timeline_key key = (h, c) := by
        simp [Client.interned_timeline_key, hh]
      rw [h1] at hk ⊢
      simp only [Client.interned_timeline_key, hk, hh]
    | none =>
      have h1 : c.interned_timeline_key key =
          (c.declared.length,
            { c with
              declared := c.declared ++ [c.apply_timeline_rename key.to_string]
              timeline_keys :=
                insertKV c.timeline_keys (c.apply_timeline_rename key.to_string)
                  c.declared.length }) := by
        simp [Client.interned_timeline_key, hh, declare_attr_key]
      rw [h1] at hk ⊢
      have hk2 : ({ c with
          declared := c.declared ++ [c.apply_timeline_rename key.to_string]
          timeline_keys :=
            insertKV c.timeline_keys (c.apply_timeline_rename key.to_string)
              c.declared.length } : Client).apply_timeline_rename key2.to_string =
          c.apply_timeline_rename key.to_string := hk
      simp only [Client.interned_timeline_key, hk2, lookupKV_insertKV_self]
  refine ⟨?_, ?_, hmain⟩
  · cases hh : lookupKV c.timeline_keys (c.apply_timeline_rename key.to_string) <;>
      simp [Client.interned_timeline_key, hh, declare_attr_key]
  · have hren : (c.interned_timeline_key key).2.rename_timeline_attrs =
        c.rename_timeline_attrs := by
      cases hh : lookupKV c.timeline_keys (c.apply_timeline_rename key.to_string) <;>
        simp [Client.interned_timeline_key, hh, declare_attr_key]
    exact hmain key (by simp [Client.apply_timeline_rename, hren])

/-- Closed instance of claim_C5: with a configured rename a -> b, interning
"a" and then "b" hits one cache entry and returns the same handle. -/
theorem claim_C5_witness :
    ((Client.new [⟨"a", "b"⟩] []).interned_timeline_key
          (.Custom "a")).2.apply_timeline_rename
        (TimelineAttrKey.Custom "b").to_string =
      (Client.new [⟨"a", "b"⟩] []).apply_timeline_rename
        (TimelineAttrKey.Custom "a").to_string ∧
    ((Client.new [⟨"a", "b"⟩] []).interned_timeline_key
          (.Custom "a")).2.interned_timeline_key (.Custom "b") =
      (((Client.new [⟨"a", "b"⟩] []).interned_timeline_key (.Custom "a")).1,
        ((Client.new [⟨"a", "b"⟩] []).interned_timeline_key (.Custom "a")).2) :=
  ⟨by rfl,
   (claim_C5 (Client.new [⟨"a", "b"⟩] []) (.Custom "a")).2.2 (.Custom "b") (by rfl)⟩

/-- src/attrs.rs `TIMELINE_INGEST_SOURCE_VAL`. -/
def TIMELINE_INGEST_SOURCE_VAL : String := "ctf-plugins"

/-- Rust u64::to_le_bytes: the eight little-endian bytes of a stream id. -/
def u64_to_le_bytes (n : Nat) : List Nat :=
  (List.range 8).map fun i => n / 256 ^ i % 256

/-- Lower-case hexadecimal digit. -/
def hexDigit (n : Nat) : Char :=
  "0123456789abcdef".toList.getD (n % 16) "0".toList.head!

/-- Two lower-case hex digits of one byte. -/
def byteToHex (b : Nat) : String :=
  String.mk [hexDigit (b / 16), hexDigit b]

/-- Rust uuid::Uuid Display: hyphenated lower-case hex (8-4-4-4-12). -/
def uuidToString (u : Uuid) : String :=
  let bs := (u.bytes ++ List.replicate 16 0).take 16
  String.intercalate "-"
    [ String.join ((bs.take 4).map byteToHex),
      String.join (((bs.drop 4).take 2).map byteToHex),
      String.join (((bs.drop 6).take 2).map byteToHex),
      String.join (((bs.drop 8).take 2).map byteToHex),
      String.join ((bs.drop 10).map byteToHex) ]

/-- The ASCII apostrophe (written via its code point). -/
def squote : String := String.singleton (Char.ofNat 39)

/-- babeltrace2_sys clock properties consumed by stream derivation. -/
structure ClockProperties where
  frequency : Nat
  offset_seconds : Int
  offset_cycles : Nat
  precision : Nat
  unix_epoch_origin : Bool
  name : Option String
  description : Option String
  uuid : Option Uuid
deriving DecidableEq, Repr

/-- babeltrace2_sys::StreamProperties (the fields this system consumes). -/
structure StreamProperties where
  id : Nat
  name : Option String
  clock : Option ClockProperties
deriving DecidableEq, Repr

/-- babeltrace2_sys::EnvValue. -/
inductive EnvValue where
  | Integer (v : Int)
  | String (v : String)
deriving DecidableEq, Repr

/-- babeltrace2_sys::TraceProperties (the fields this system consumes).
`env` entries are the ordered key/value pairs of the trace environment. -/
structure TraceProperties where
  name : Option String
  uuid : Option Uuid
  env : Option (List (String × EnvValue))
deriving DecidableEq, Repr

/-- One `attrs.insert(client.interned_timeline_key(key).await?, v)` step:
intern the key (threading the registry) and insert the value. -/
def addTimelineAttr (st : List (Nat × AttrVal) × Client) (key : TimelineAttrKey)
    (v : AttrVal) : List (Nat × AttrVal) × Client :=
  let r := st.2.interned_timeline_key key
  (insertKV st.1 r.1 v, r.2)

/-- src/properties/stream.rs `CtfStreamProperties`. -/
structure CtfStreamProperties where
  timeline_id : TimelineId
  attrs : List (Nat × AttrVal)
deriving DecidableEq, Repr

/-- src/properties/stream.rs `CtfStreamProperties::new`.  `newV5` is the
external `Uuid::new_v5` (SHA-1 based, pure); `fs` is the external
filesystem probe: for a stream name that is an existing path it returns
the path's final component (`Path::exists` + `Path::file_name` +
`to_string_lossy`), otherwise `none`. -/
def CtfStreamProperties.new (newV5 : Uuid → List Nat → Uuid)
    (fs : String → Option String) (trace_uuid : Uuid) (s : StreamProperties)
    (client : Client) : CtfStreamProperties × Client :=
  let timeline_id : TimelineId := ⟨newV5 trace_uuid (u64_to_le_bytes s.id)⟩
  let stream_name_from_path := s.name.bind fs
  let stream_name :=
    (stream_name_from_path.or s.name).getD ("stream" ++ toString s.id)
  let st := addTimelineAttr ([], client) .Description
    (.string ("CTF stream " ++ squote ++ stream_name ++ squote))
  let st := addTimelineAttr st .Name (.string stream_name)
  let st := addTimelineAttr st .StreamName (.string stream_name)
  let st := addTimelineAttr st .StreamId (BigInt.new_attr_val (s.id : Int))
  let st := addTimelineAttr st .IngestSource (.string TIMELINE_INGEST_SOURCE_VAL)
  let st :=
    match s.clock with
    | none => st
    | some c =>
      let st := addTimelineAttr st .StreamClockFreq
        (BigInt.new_attr_val (c.frequency : Int))
      let st := addTimelineAttr st .StreamClockOffsetSeconds
        (.integer c.offset_seconds)
      let st := addTimelineAttr st .StreamClockOffsetCycles
        (BigInt.new_attr_val (c.offset_cycles : Int))
      let st := addTimelineAttr st .StreamClockPrecision
        (BigInt.new_attr_val (c.precision : Int))
      let st := addTimelineAttr st .StreamClockUnixEpoch (.bool c.unix_epoch_origin)
      let st :=
        match c.name with
        | some cn => addTimelineAttr st .StreamClockName (.string cn)
        | none => st
      let st :=
        match c.description with
        | some cd => addTimelineAttr st .StreamClockDesc (.string cd)
        | none => st
      let st :=
        match c.uuid with
        | some cid =>
          addTimelineAttr
            (addTimelineAttr st .StreamClockUuid (.string (uuidToString cid)))
            .TimeDomain (.string (uuidToString cid))
        | none => st
      addTimelineAttr st .ClockStyle
        (.string (if c.unix_epoch_origin then "utc" else "relative"))
  (⟨timeline_id, st.1⟩, st.2)

/-- src/properties/trace.rs `CtfTraceProperties`. -/
structure CtfTraceProperties where
  attrs : List (Nat × AttrVal)
deriving DecidableEq, Repr

/-- src/properties/trace.rs `CtfTraceProperties::new`.  `freshRun` is the
fresh random UUID `Uuid::new_v4` would produce for a missing run id. -/
def CtfTraceProperties.new (freshRun : Uuid) (run_id : Option Uuid)
    (trace_uuid_override : Option Uuid) (stream_count : Nat)
    (t : TraceProperties) (client : Client) : CtfTraceProperties × Client :=
  let st := addTimelineAttr ([], client) .RunId
    (.string (uuidToString (run_id.getD freshRun)))
  let st :=
    match trace_uuid_override.or t.uuid with
    | some uuid => addTimelineAttr st .TraceUuid (.string (uuidToString uuid))
    | none => st
  let st := addTimelineAttr st .TraceStreamCount
    (BigInt.new_attr_val (stream_count : Int))
  let st :=
    match t.name with
    | some nm =>
      addTimelineAttr (addTimelineAttr st .Name (.string nm)) .TraceName
        (.string nm)
    | none => st
  let st :=
    match t.env with
    | some e =>
      e.foldl
        (fun (st : List (Nat × AttrVal) × Client) (kv : String × EnvValue) =>
          addTimelineAttr st (.TraceEnv kv.1)
            (match kv.2 with
             | .Integer i => .integer i
             | .String s2 => .string s2))
        st
    | none => st
  (⟨st.1⟩, st.2)

/-- src/properties/mod.rs `CtfProperties`: the trace properties and the
BTreeMap from stream id to stream properties (modelled as an association
list with unique keys; iteration order of the claims never crosses
streams). -/
structure CtfProperties where
  trace : CtfTraceProperties
  streams : List (Nat × CtfStreamProperties)
deriving DecidableEq, Repr

/-- src/properties/mod.rs `CtfProperties::new`.  `freshTrace` is the fresh
random UUID the non-deterministic fallback would produce when neither an
override nor a decoder-reported trace UUID exists. -/
def CtfProperties.new (newV5 : Uuid → List Nat → Uuid)
    (fs : String → Option String) (freshRun freshTrace : Uuid)
    (run_id trace_uuid_override : Option Uuid) (t : TraceProperties)
    (ss : List StreamProperties) (client : Client) : CtfProperties × Client :=
  let trace_uuid := (trace_uuid_override.or t.uuid).getD freshTrace
  let stream_count := ss.length
  let rt := CtfTraceProperties.new freshRun run_id trace_uuid_override
    stream_count t client
  let rs := ss.foldl
    (fun (acc : List (Nat × CtfStreamProperties) × Client) stream =>
      let r := CtfStreamProperties.new newV5 fs trace_uuid stream acc.2
      (insertKV acc.1 stream.id r.1, r.2))
    ([], rt.2)
  (⟨rt.1, rs.1⟩, rs.2)

/-- src/properties/mod.rs `CtfProperties::timelines`: one triple per
stream entry; the attribute list is the stream's attributes with the
trace's attributes appended after them (`extend_from_slice`). -/
def CtfProperties.timelines (p : CtfProperties) :
    List (Nat × TimelineId × List (Nat × AttrVal)) :=
  p.streams.map fun q => (q.1, q.2.timeline_id, q.2.attrs ++ p.trace.attrs)

/-- C6: the derived timeline identifier is the version-5 UUID in the
namespace of the trace UUID over the little-endian bytes of the stream id;
it is a pure function of exactly (trace UUID, stream id): any two stream
descriptors with equal ids, any filesystem states and any registry states
derive the same identifier. -/
theorem claim_C6 (newV5 : Uuid → List Nat → Uuid)
    (fs1 fs2 : String → Option String) (t : Uuid) (s1 s2 : StreamProperties)
    (c1 c2 : Client) (hid : s1.id = s2.id) :
    (CtfStreamProperties.new newV5 fs1 t s1 c1).1.timeline_id =
        ⟨newV5 t (u64_to_le_bytes s1.id)⟩ ∧
    (CtfStreamProperties.new newV5 fs1 t s1 c1).1.timeline_id =
        (CtfStreamProperties.new newV5 fs2 t s2 c2).1.timeline_id := by
  have h : ∀ (fs : String → Option String) (s : StreamProperties) (c : Client),
      (CtfStreamProperties.new newV5 fs t s c).1.timeline_id =
        ⟨newV5 t (u64_to_le_bytes s.id)⟩ := by
    intro fs s c
    cases s with
    | mk id name clock =>
      cases clock <;> rfl
  exact ⟨h fs1 s1 c1, by rw [h fs1 s1 c1, h fs2 s2 c2, hid]⟩

/-- Closed instance of claim_C6: two descriptors sharing id 5 but nothing
else derive the identical timeline id, which is the v5 derivation. -/
theorem claim_C6_witness :
    (5 : Nat) = (5 : Nat) ∧
    (CtfStreamProperties.new (fun u bs => ⟨u.bytes ++ bs⟩) (fun _ => none)
          ⟨List.replicate 16 0⟩ ⟨5, some "S", none⟩ (Client.new [] [])).1.timeline_id =
        ⟨⟨List.replicate 16 0 ++ u64_to_le_bytes 5⟩⟩ ∧
    (CtfStreamProperties.new (fun u bs => ⟨u.bytes ++ bs⟩) (fun _ => none)
          ⟨List.replicate 16 0⟩ ⟨5, some "S", none⟩ (Client.new [] [])).1.timeline_id =
      (CtfStreamProperties.new (fun u bs => ⟨u.bytes ++ bs⟩) (fun _ => some "x")
          ⟨List.replicate 16 0⟩ ⟨5, none, some ⟨1, 2, 3, 4, true, none, none, none⟩⟩
          (Client.new [] [])).1.timeline_id :=
  ⟨rfl,
   (claim_C6 (fun u bs => ⟨u.bytes ++ bs⟩) (fun _ => none) (fun _ => some "x")
      ⟨List.replicate 16 0⟩ ⟨5, some "S", none⟩
      ⟨5, none, some ⟨1, 2, 3, 4, true, none, none, none⟩⟩
      (Client.new [] []) (Client.new [] []) rfl).1,
   (claim_C6 (fun u bs => ⟨u.bytes ++ bs⟩) (fun _ => none) (fun _ => some "x")
      ⟨List.replicate 16 0⟩ ⟨5, some "S", none⟩
      ⟨5, none, some ⟨1, 2, 3, 4, true, none, none, none⟩⟩
      (Client.new [] []) (Client.new [] []) rfl).2⟩

/-- Option alternative (first non-none). -/
def orElseO {α : Type} : Option α → Option α → Option α
  | some v, _ => some v
  | none, b => b

theorem lookupKV_append {α β : Type} [DecidableEq α] (a b : List (α × β)) (k : α) :
    lookupKV (a ++ b) k = orElseO (lookupKV a k) (lookupKV b k) := by
  induction a with
  | nil => simp [lookupKV, orElseO]
  | cons p ps ih =>
    by_cases hp : p.1 = k <;> simp [lookupKV, hp, ih, orElseO]

/-- The value a key resolves to under last-entry-wins reading of an
attribute list (the last binding of the key, if any). -/
def valueAt {α β : Type} [DecidableEq α] (kvs : List (α × β)) (k : α) : Option β :=
  lookupKV kvs.reverse k

theorem valueAt_append {α β : Type} [DecidableEq α]
    (a b : List (α × β)) (k : α) :
    valueAt (a ++ b) k = orElseO (valueAt b k) (valueAt a k) := by
  simp [valueAt, List.reverse_append, lookupKV_append]

/-- The submission-site interpretation of an attribute list: entries are
inserted in order into a map, later entries overriding earlier ones —
exactly the fold the lttng-live collector performs before
timeline_metadata (src/bin/lttng_live_collector.rs lines 288-295). -/
def collectAttrs {α β : Type} [DecidableEq α] (kvs : List (α × β)) :
    List (α × β) :=
  kvs.foldl (fun m kv => insertKV m kv.1 kv.2) []

theorem lookupKV_foldl_insertKV {α β : Type} [DecidableEq α]
    (l : List (α × β)) (m : List (α × β)) (k : α) :
    lookupKV (l.foldl (fun m kv => insertKV m kv.1 kv.2) m) k =
      orElseO (valueAt l k) (lookupKV m k) := by
  induction l generalizing m with
  | nil => simp [valueAt, lookupKV, orElseO]
  | cons kv l ih =>
    rw [List.foldl_cons, ih]
    have hv : valueAt (kv :: l) k =
        orElseO (valueAt l k) (if kv.1 = k then some kv.2 else none) := by
      have : (kv :: l).reverse = l.reverse ++ [kv] := by simp
      simp only [valueAt, this, lookupKV_append]
      cases lookupKV l.reverse k <;> simp [lookupKV, orElseO]
    rw [hv]
    cases hval : valueAt l k with
    | some v => simp [orElseO]
    | none =>
      by_cases hk : kv.1 = k
      · subst hk
        simp [orElseO, lookupKV_insertKV_self]
      · simp [orElseO, hk, lookupKV_insertKV_ne m kv.1 k kv.2 (fun hh => hk hh.symm)]

theorem lookupKV_collectAttrs {α β : Type} [DecidableEq α]
    (l : List (α × β)) (k : α) :
    lookupKV (collectAttrs l) k = valueAt l k := by
  rw [collectAttrs, lookupKV_foldl_insertKV]
  cases valueAt l k <;> simp [orElseO, lookupKV]

theorem insertKV_keys_of_not_mem {α β : Type} [DecidableEq α]
    (m : List (α × β)) (k : α) (v : β) (h : k ∉ m.map Prod.fst) :
    (insertKV m k v).map Prod.fst = m.map Prod.fst ++ [k] := by
  induction m with
  | nil => simp [insertKV]
  | cons p ps ih =>
    simp only [List.map_cons, List.mem_cons] at h
    push_neg at h
    have hp : p.1 ≠ k := fun hh => h.1 hh.symm
    simp [insertKV, hp, ih h.2]

/-- The stream-descriptor fold of `CtfProperties::new` inserts exactly one
entry per descriptor (in order) when the descriptors carry distinct ids. -/
theorem streams_fold_keys (newV5 : Uuid → List Nat → Uuid)
    (fs : String → Option String) (tu : Uuid) (ss : List StreamProperties)
    (init : List (Nat × CtfStreamProperties) × Client)
    (h : ∀ s ∈ ss, s.id ∉ init.1.map Prod.fst)
    (hnd : (ss.map StreamProperties.id).Nodup) :
    ((ss.foldl
        (fun (acc : List (Nat × CtfStreamProperties) × Client) stream =>
          let r := CtfStreamProperties.new newV5 fs tu stream acc.2
          (insertKV acc.1 stream.id r.1, r.2))
        init).1).map Prod.fst =
      init.1.map Prod.fst ++ ss.map StreamProperties.id := by
  induction ss generalizing init with
  | nil => simp
  | cons s rest ih =>
    simp only [List.foldl_cons, List.map_cons]
    simp only [List.map_cons, List.nodup_cons] at hnd
    have hs : s.id ∉ init.1.map Prod.fst := h s (by simp)
    have hkeys : (insertKV init.1 s.id
          (CtfStreamProperties.new newV5 fs tu s init.2).1).map Prod.fst =
        init.1.map Prod.fst ++ [s.id] :=
      insertKV_keys_of_not_mem _ _ _ hs
    rw [ih _ ?_ hnd.2, hkeys]
    · simp
    · intro s2 hs2
      rw [hkeys]
      simp only [List.mem_append, List.mem_singleton]
      push_neg
      refine ⟨fun hh => h s2 (by simp [hs2]) hh, fun hh => hnd.1 ?_⟩
      rw [← hh]
      exact List.mem_map_of_mem _ hs2

/-- C9 (amended): for stream descriptors with pairwise distinct ids, the
timelines operation yields exactly one (stream id, timeline id, attribute
list) triple per descriptor, whose attribute list is the stream's
attributes followed by the trace's attributes; for a key bound in both,
both bindings are present with the trace binding after the stream one, so
the TRACE value is the one that survives the order-sensitive (last wins)
attribute-map collection performed at submission. -/
theorem claim_C9 (newV5 : Uuid → List Nat → Uuid)
    (fs : String → Option String) (freshRun freshTrace : Uuid)
    (run_id trace_uuid_override : Option Uuid) (t : TraceProperties)
    (ss : List StreamProperties) (c : Client)
    (hnd : (ss.map StreamProperties.id).Nodup) :
    (CtfProperties.new newV5 fs freshRun freshTrace run_id trace_uuid_override
        t ss c).1.timelines.length = ss.length ∧
    (∀ e ∈ (CtfProperties.new newV5 fs freshRun freshTrace run_id
        trace_uuid_override t ss c).1.timelines,
      ∃ q ∈ (CtfProperties.new newV5 fs freshRun freshTrace run_id
          trace_uuid_override t ss c).1.streams,
        e = (q.1, q.2.timeline_id,
          q.2.attrs ++ (CtfProperties.new newV5 fs freshRun freshTrace run_id
            trace_uuid_override t ss c).1.trace.attrs)) ∧
    (∀ e ∈ (CtfProperties.new newV5 fs freshRun freshTrace run_id
        trace_uuid_override t ss c).1.timelines,
      ∀ (k : Nat) (v : AttrVal),
        valueAt (CtfProperties.new newV5 fs freshRun freshTrace run_id
          trace_uuid_override t ss c).1.trace.attrs k = some v →
        lookupKV (collectAttrs e.2.2) k = some v) := by
  refine ⟨?_, ?_, ?_⟩
  · have hkeys := streams_fold_keys newV5 fs
      ((trace_uuid_override.or t.uuid).getD freshTrace) ss
      ([], (CtfTraceProperties.new freshRun run_id trace_uuid_override
        ss.length t c).2) (by simp) hnd
    have hlen : (CtfProperties.new newV5 fs freshRun freshTrace run_id
        trace_uuid_override t ss c).1.streams.length = ss.length := by
      have := congrArg List.length hkeys
      simpa [CtfProperties.new] using this
    simp [CtfProperties.timelines, hlen]
  · intro e he
    simp only [CtfProperties.timelines, List.mem_map] at he
    obtain ⟨q, hq, rfl⟩ := he
    exact ⟨q, hq, rfl⟩
  · intro e he k v hv
    simp only [CtfProperties.timelines, List.mem_map] at he
    obtain ⟨q, hq, rfl⟩ := he
    simp only [lookupKV_collectAttrs, valueAt_append, hv, orElseO]

/-- Concrete C9 scenario: an empty registry, a trace named "T" and one
stream (id 0) named "S"; no clock, no renames, no overrides. -/
def c9client : Client := Client.new [] []

def c9trace : TraceProperties := ⟨some "T", none, none⟩

def c9stream : StreamProperties := ⟨0, some "S", none⟩

def c9props : CtfProperties × Client :=
  CtfProperties.new (fun u _ => u) (fun _ => none) ⟨List.replicate 16 0⟩
    ⟨List.replicate 16 1⟩ none none c9trace [c9stream] c9client

/-- C9 as written is refuted at this input: interned key 2 is
timeline.name, bound to "S" by the stream and to "T" by the trace; in the
merged attribute list the trace binding comes after the stream binding, so
the order-sensitive attribute-map collection performed at submission keeps
the TRACE value "T" — the stream's value does not take precedence. -/
theorem claim_C9_counterexample :
    valueAt c9props.1.trace.attrs 2 = some (.string "T") ∧
    valueAt (c9props.1.streams.headD (0, ⟨⟨⟨[]⟩⟩, []⟩)).2.attrs 2 =
      some (.string "S") ∧
    lookupKV (collectAttrs (c9props.1.timelines.headD (0, ⟨⟨[]⟩⟩, [])).2.2) 2 =
      some (.string "T") ∧
    AttrVal.string "T" ≠ AttrVal.string "S" :=
  ⟨by rfl, by rfl, by rfl, by decide⟩

/-- Closed instance of claim_C9 at the concrete scenario. -/
theorem claim_C9_witness :
    ([c9stream].map StreamProperties.id).Nodup ∧
    c9props.1.timelines.length = 1 ∧
    valueAt c9props.1.trace.attrs 2 = some (.string "T") ∧
    lookupKV
        (collectAttrs (c9props.1.timelines.headD (0, ⟨⟨[]⟩⟩, [])).2.2) 2 =
      some (.string "T") :=
  ⟨by decide,
   (claim_C9 (fun u _ => u) (fun _ => none) ⟨List.replicate 16 0⟩
      ⟨List.replicate 16 1⟩ none none c9trace [c9stream] c9client
      (by decide)).1,
   by rfl,
   (claim_C9 (fun u _ => u) (fun _ => none) ⟨List.replicate 16 0⟩
      ⟨List.replicate 16 1⟩ none none c9trace [c9stream] c9client
      (by decide)).2.2
     (c9props.1.timelines.headD (0, ⟨⟨[]⟩⟩, []))
     (by decide) 2 (.string "T") (by rfl)⟩

/-- One decoded event as the import loop consumes it: its reporting stream
id and the class id quoted in drop warnings (src/bin/importer.rs). -/
structure PipeEvent where
  stream_id : Nat
  class_id : Nat
deriving DecidableEq, Repr

/-- The mutable state of the import loop of src/bin/importer.rs
`do_main` (lines 157-202): the per-timeline ordering counters, the
sequence of `client.c.event(ordering, ...)` submissions in order, and the
class ids of the warned-and-dropped events. -/
structure PipeState where
  last_timeline_ordering_val : List (TimelineId × Nat)
  submitted : List (TimelineId × Nat × PipeEvent)
  warnings : List Nat
deriving DecidableEq, Repr

/-- The declaration loop (importer lines 163-167): every declared timeline
gets its ordering counter initialized to 0 before streaming begins. -/
def init_pipe (tls : List (Nat × TimelineId × List (Nat × AttrVal))) :
    PipeState :=
  { last_timeline_ordering_val :=
      tls.foldl (fun m e => insertKV m e.2.1 0) []
    submitted := []
    warnings := [] }

/-- The body of the event loop (importer lines 169-202).  `streams` is the
stream-id → timeline-id view of the property map
(`props.streams.get(&event.stream_id).map(|s| s.timeline_id())`).
An unresolvable stream id, or a resolved timeline with no counter, warns
and drops; otherwise the event is submitted tagged with the current
counter value and the counter is incremented by exactly one. -/
def process_event (streams : List (Nat × TimelineId)) (st : PipeState)
    (e : PipeEvent) : PipeState :=
  match lookupKV streams e.stream_id with
  | none => { st with warnings := st.warnings ++ [e.class_id] }
  | some tid =>
    match lookupKV st.last_timeline_ordering_val tid with
    | none => { st with warnings := st.warnings ++ [e.class_id] }
    | some ordering =>
      { st with
        submitted := st.submitted ++ [(tid, ordering, e)]
        last_timeline_ordering_val :=
          insertKV st.last_timeline_ordering_val tid (ordering + 1) }

/-- The whole event loop over the decoded events, in decode order. -/
def run_pipe (streams : List (Nat × TimelineId)) (st : PipeState)
    (evs : List PipeEvent) : PipeState :=
  evs.foldl (process_event streams) st

/-- The counter a timeline currently holds (0 when absent, which only
happens for timelines that can never be submitted to). -/
def counterVal (st : PipeState) (tid : TimelineId) : Nat :=
  (lookupKV st.last_timeline_ordering_val tid).getD 0

/-- The sequence of ordering values submitted for one timeline, in
submission order. -/
def orderingsFor (st : PipeState) (tid : TimelineId) : List Nat :=
  (st.submitted.filter fun q => q.1 = tid).map fun q => q.2.1

theorem lookupKV_mem {α β : Type} [DecidableEq α]
    (m : List (α × β)) (k : α) (v : β) (h : lookupKV m k = some v) :
    (k, v) ∈ m := by
  induction m with
  | nil => simp [lookupKV] at h
  | cons p ps ih =>
    by_cases hp : p.1 = k
    · have h' : some p.2 = some v := by rwa [lookupKV, if_pos hp] at h
      have hpk : p = (k, v) := Prod.ext hp (Option.some.inj h')
      rw [show ((k, v) : α × β) = p from hpk.symm]
      exact List.mem_cons_self _ _
    · simp only [lookupKV, if_neg hp] at h
      exact List.mem_cons_of_mem _ (ih h)

theorem forall_insertKV {α β : Type} [DecidableEq α]
    (m : List (α × β)) (k : α) (v : β) (P : α × β → Prop)
    (hm : ∀ e ∈ m, P e) (hkv : P (k, v)) :
    ∀ e ∈ insertKV m k v, P e := by
  induction m with
  | nil => simpa [insertKV] using hkv
  | cons p ps ih =>
    by_cases hp : p.1 = k
    · simp only [insertKV, hp, if_pos rfl]
      intro e he
      rcases List.mem_cons.1 he with rfl | he
      · exact hkv
      · exact hm e (List.mem_cons_of_mem _ he)
    · simp only [insertKV, hp, if_neg hp]
      intro e he
      rcases List.mem_cons.1 he with rfl | he
      · exact hm _ (List.mem_cons_self _ _)
      · exact ih (fun q hq => hm q (List.mem_cons_of_mem _ hq)) e he

/-- All counters produced by the declaration loop are 0. -/
theorem init_pipe_counters (tls : List (Nat × TimelineId × List (Nat × AttrVal))) :
    ∀ e ∈ (init_pipe tls).last_timeline_ordering_val, e.2 = 0 := by
  have hgen : ∀ (l : List (Nat × TimelineId × List (Nat × AttrVal)))
      (m : List (TimelineId × Nat)), (∀ e ∈ m, e.2 = 0) →
      ∀ e ∈ l.foldl (fun m e => insertKV m e.2.1 0) m, e.2 = 0 := by
    intro l
    induction l with
    | nil => intro m hm; simpa using hm
    | cons q l ih =>
      intro m hm
      exact ih _ (forall_insertKV m q.2.1 0 _ hm rfl)
  exact hgen tls [] (by simp)

/-- The per-timeline submission-sequence invariant: what has been
submitted for each timeline is exactly 0, 1, ..., counter-1, in order. -/
def PipeInv (st : PipeState) : Prop :=
  ∀ tid, orderingsFor st tid = List.range (counterVal st tid)

theorem process_event_inv (streams : List (Nat × TimelineId))
    (st : PipeState) (e : PipeEvent) (h : PipeInv st) :
    PipeInv (process_event streams st e) := by
  intro tid
  cases hs : lookupKV streams e.stream_id with
  | none => simpa [process_event, hs, orderingsFor, counterVal] using h tid
  | some tid0 =>
    cases hc : lookupKV st.last_timeline_ordering_val tid0 with
    | none => simpa [process_event, hs, hc, orderingsFor, counterVal] using h tid
    | some n =>
      by_cases ht : tid = tid0
      · subst ht
        have hcount : counterVal (process_event streams st e) tid = n + 1 := by
          simp [process_event, hs, hc, counterVal, lookupKV_insertKV_self]
        have hord : orderingsFor (process_event streams st e) tid =
            orderingsFor st tid ++ [n] := by
          simp [process_event, hs, hc, orderingsFor]
        rw [hord, hcount, h tid, List.range_succ, counterVal, hc]
        rfl
      · have hcount : counterVal (process_event streams st e) tid =
            counterVal st tid := by
          simp [process_event, hs, hc, counterVal,
            lookupKV_insertKV_ne _ _ _ _ ht]
        have ht' : ¬tid0 = tid := fun hh => ht hh.symm
        have hord : orderingsFor (process_event streams st e) tid =
            orderingsFor st tid := by
          simp [process_event, hs, hc, orderingsFor, List.filter_append, ht']
        rw [hord, hcount, h tid]

/-- C7: ordering counters start at 0 for every declared timeline, never
decrease at any step, and each submission is tagged with the counter's
current value with the counter then incremented by exactly 1 — so after
any run, each timeline's submitted ordering sequence is exactly
0, 1, ..., counter-1, independently of how events interleave across
timelines. -/
theorem claim_C7 (tls : List (Nat × TimelineId × List (Nat × AttrVal)))
    (streams : List (Nat × TimelineId)) (evs : List PipeEvent) :
    (∀ e ∈ (init_pipe tls).last_timeline_ordering_val, e.2 = 0) ∧
    (∀ (st : PipeState) (e : PipeEvent) (tid : TimelineId),
      counterVal st tid ≤ counterVal (process_event streams st e) tid) ∧
    (∀ (st : PipeState) (e : PipeEvent) (tid : TimelineId) (n : Nat),
      lookupKV streams e.stream_id = some tid →
      lookupKV st.last_timeline_ordering_val tid = some n →
      process_event streams st e =
        { st with
          submitted := st.submitted ++ [(tid, n, e)]
          last_timeline_ordering_val :=
            insertKV st.last_timeline_ordering_val tid (n + 1) }) ∧
    (∀ tid, orderingsFor (run_pipe streams (init_pipe tls) evs) tid =
      List.range (counterVal (run_pipe streams (init_pipe tls) evs) tid)) := by
  refine ⟨init_pipe_counters tls, ?_, ?_, ?_⟩
  · intro st e tid
    cases hs : lookupKV streams e.stream_id with
    | none => simp [process_event, hs, counterVal]
    | some tid0 =>
      cases hc : lookupKV st.last_timeline_ordering_val tid0 with
      | none => simp [process_event, hs, hc, counterVal]
      | some n =>
        by_cases ht : tid = tid0
        · subst ht
          simp [process_event, hs, hc, counterVal, lookupKV_insertKV_self]
        · simp [process_event, hs, hc, counterVal,
            lookupKV_insertKV_ne _ _ _ _ ht]
  · intro st e tid n hs hc
    simp [process_event, hs, hc]
  · have hrun : ∀ (l : List PipeEvent) (st : PipeState), PipeInv st →
        PipeInv (run_pipe streams st l) := by
      intro l
      induction l with
      | nil => intro st h; simpa [run_pipe] using h
      | cons e l ih =>
        intro st h
        exact ih _ (process_event_inv streams st e h)
    have hinit : PipeInv (init_pipe tls) := by
      intro tid
      have : orderingsFor (init_pipe tls) tid = [] := by
        simp [orderingsFor, init_pipe]
      rw [this]
      cases hc : lookupKV (init_pipe tls).last_timeline_ordering_val tid with
      | none => simp [counterVal, hc]
      | some n =>
        have hz : n = 0 := by
          have hmem := lookupKV_mem _ _ _ hc
          exact init_pipe_counters tls _ hmem
        simp [counterVal, hc, hz]
    exact hrun evs (init_pipe tls) hinit

/-- C8: an event whose stream id resolves to no declared timeline, or to a
timeline with no counter, is dropped: a warning naming the event is
recorded, nothing is submitted, no counter is read-modified, and the run
continues with the next event as if the dropped one were consumed. -/
theorem claim_C8 (streams : List (Nat × TimelineId)) (st : PipeState)
    (e : PipeEvent)
    (h : lookupKV streams e.stream_id = none ∨
      ∃ tid, lookupKV streams e.stream_id = some tid ∧
        lookupKV st.last_timeline_ordering_val tid = none) :
    process_event streams st e =
      { st with warnings := st.warnings ++ [e.class_id] } ∧
    (process_event streams st e).submitted = st.submitted ∧
    (process_event streams st e).last_timeline_ordering_val =
      st.last_timeline_ordering_val ∧
    ∀ evs, run_pipe streams st (e :: evs) =
      run_pipe streams { st with warnings := st.warnings ++ [e.class_id] } evs := by
  have hmain : process_event streams st e =
      { st with warnings := st.warnings ++ [e.class_id] } := by
    rcases h with hs | ⟨tid, hs, hc⟩
    · simp [process_event, hs]
    · simp [process_event, hs, hc]
  exact ⟨hmain, by rw [hmain], by rw [hmain], fun evs => by
    simp [run_pipe, hmain]⟩

/-- Two concrete timelines and an interleaved event schedule used to
instantiate the pipeline theorems. -/
def c7A : TimelineId := ⟨⟨[0]⟩⟩

def c7B : TimelineId := ⟨⟨[1]⟩⟩

def c7tls : List (Nat × TimelineId × List (Nat × AttrVal)) :=
  [(1, c7A, []), (2, c7B, [])]

def c7streams : List (Nat × TimelineId) := [(1, c7A), (2, c7B)]

def c7evs : List PipeEvent := [⟨1, 10⟩, ⟨2, 11⟩, ⟨1, 12⟩, ⟨2, 13⟩, ⟨1, 14⟩]

/-- Closed instance of claim_C7: interleaving five events across two
timelines leaves each timeline's submitted ordering sequence 0, 1, 2, ...
independently. -/
theorem claim_C7_witness :
    orderingsFor (run_pipe c7streams (init_pipe c7tls) c7evs) c7A =
      List.range (counterVal (run_pipe c7streams (init_pipe c7tls) c7evs) c7A) ∧
    orderingsFor (run_pipe c7streams (init_pipe c7tls) c7evs) c7A = [0, 1, 2] ∧
    orderingsFor (run_pipe c7streams (init_pipe c7tls) c7evs) c7B = [0, 1] :=
  ⟨(claim_C7 c7tls c7streams c7evs).2.2.2 c7A, by rfl, by rfl⟩

/-- Closed instance of claim_C8: an event with unknown stream id 9 only
records a warning. -/
theorem claim_C8_witness :
    lookupKV c7streams (9 : Nat) = none ∧
    process_event c7streams (init_pipe c7tls) ⟨9, 42⟩ =
      { init_pipe c7tls with warnings := [42] } :=
  ⟨by rfl,
   ((claim_C8 c7streams (init_pipe c7tls) ⟨9, 42⟩ (Or.inl (by rfl))).1).trans
     (by rfl)⟩

/-- A registry whose configured renames chain: a -> b and b -> c. -/
def c5chain : Client := Client.new [⟨"a", "b"⟩, ⟨"b", "c"⟩] []

/-- C5 as written is refuted at this input: under the chained rename table
a -> b, b -> c, interning the renamed-from spelling "a" and then the
renamed-to spelling "b" of the first rename produces two distinct cache
entries (timeline.b and timeline.c), two declare round trips, and two
different handles — the substitution is applied once, not to a fixpoint. -/
theorem claim_C5_counterexample :
    ((c5chain.interned_timeline_key (.Custom "a")).2.interned_timeline_key
        (.Custom "b")).2.timeline_keys =
      [("timeline.b", 0), ("timeline.c", 1)] ∧
    ((c5chain.interned_timeline_key (.Custom "a")).2.interned_timeline_key
        (.Custom "b")).2.declared = ["timeline.b", "timeline.c"] ∧
    (c5chain.interned_timeline_key (.Custom "a")).1 ≠
      ((c5chain.interned_timeline_key (.Custom "a")).2.interned_timeline_key
        (.Custom "b")).1 :=
  ⟨by rfl, by rfl, by decide⟩

end ModalityCtf
